import Mathlib

/-!
Verification of the `ht_timeparser` crate (`src/lib.rs`) against its
natural-language specification.

Rust strings (`&str`) are modelled as lists of UTF-8 bytes (`List Nat`,
each entry < 256).  Rust byte-slicing `&s[a..b]` panics when the range is
out of bounds or not on a character boundary; a panic is modelled as
`Option.none` in the outer layer of `interpret_string`, while `Result`
values returned by the Rust code are modelled by `Except`.
-/

namespace HT

/-- `ht_cal::datetime::MonthStatus` (re-exported enum used by the codec). -/
inductive MonthStatus
  | Greater
  | Lesser
deriving DecidableEq

/-- `ht_cal::datetime::Month` (re-exported enum used by the codec). -/
inductive Month
  | Zero
  | Niktvirin
  | Apress
  | Smosh
  | Funny
deriving DecidableEq

/-- The `HTDate` struct from `src/lib.rs` (`year: u128`, `month: (MonthStatus, Month)`,
`day: u8`, `second: u128`); the unsigned machine integers are modelled as `Nat`
(every value the code stores in them is small enough that no wraparound can occur,
and the decimal-parsing helpers below perform the integer-type bound checks). -/
structure HTDate where
  year : Nat
  month : MonthStatus × Month
  day : Nat
  second : Nat
deriving DecidableEq

/-- The `HTParseError` enum from `src/lib.rs`. -/
inductive HTParseError
  | MalformedString
  | TooManyDays
  | OtherwiseInvalidDate
deriving DecidableEq

instance {ε α : Type} [DecidableEq ε] [DecidableEq α] : DecidableEq (Except ε α)
  | Except.ok a, Except.ok b =>
    if h : a = b then isTrue (by rw [h]) else isFalse (fun hh => h (Except.ok.inj hh))
  | Except.ok _, Except.error _ => isFalse (fun hh => Except.noConfusion hh)
  | Except.error _, Except.ok _ => isFalse (fun hh => Except.noConfusion hh)
  | Except.error e, Except.error f =>
    if h : e = f then isTrue (by rw [h]) else isFalse (fun hh => h (Except.error.inj hh))

/-- Rust `str::is_char_boundary`: position 0 is always a boundary; an interior
position is a boundary iff its byte is not a UTF-8 continuation byte
(`0x80..=0xBF`); the end position `len` is a boundary; positions past the end
are not. -/
def isCharBoundary (bs : List Nat) (i : Nat) : Bool :=
  if i = 0 then true
  else if i < bs.length then decide (bs.getD i 0 < 128 ∨ 192 ≤ bs.getD i 0)
  else decide (i = bs.length)

/-- Rust byte-range slicing `&s[a..b]`: yields the sub-byte-string when
`a ≤ b`, both ends are char boundaries (which forces `b ≤ len`), and panics
(`none`) otherwise. -/
def strSlice (bs : List Nat) (a b : Nat) : Option (List Nat) :=
  if a ≤ b ∧ isCharBoundary bs a ∧ isCharBoundary bs b then
    some ((bs.drop a).take (b - a))
  else none

/-- Digit-accumulating loop of Rust's unsigned `from_str`: consumes ASCII
digits, failing on any non-digit byte. -/
def parseDigits : Nat → List Nat → Option Nat
  | acc, [] => some acc
  | acc, b :: rest =>
    if 48 ≤ b ∧ b ≤ 57 then parseDigits (acc * 10 + (b - 48)) rest else none

/-- Rust `str::parse` for an unsigned integer type, before the type's range
check: an optional leading `+` (a leading `-` is a plain non-digit for an
unsigned type) followed by at least one ASCII digit. -/
def parseDecimal (bs : List Nat) : Option Nat :=
  match bs with
  | [] => none
  | b :: rest =>
    if b = 43 then
      match rest with
      | [] => none
      | _ :: _ => parseDigits 0 rest
    else parseDigits 0 bs

/-- `str::parse::<u128>()`: decimal parse plus the `u128` range check. -/
def parse_u128 (bs : List Nat) : Option Nat :=
  (parseDecimal bs).bind (fun n => if n < 2 ^ 128 then some n else none)

/-- `str::parse::<u8>()`: decimal parse plus the `u8` range check. -/
def parse_u8 (bs : List Nat) : Option Nat :=
  (parseDecimal bs).bind (fun n => if n < 2 ^ 8 then some n else none)

/-- `parse_month_from_gl_and_m` from `src/lib.rs`: matches the status string
against `"G"` / `"L"` (bytes `[71]` / `[76]`) and the month string against
`"Z"`, `"N"`, `"A"`, `"S"`, `"F"` (bytes 90, 78, 65, 83, 70), returning
`MalformedString` for anything else. -/
def parse_month_from_gl_and_m (gl_str month_str : List Nat) :
    Except HTParseError (MonthStatus × Month) :=
  if gl_str = [71] then
    if month_str = [90] then Except.ok (MonthStatus.Greater, Month.Zero)
    else if month_str = [78] then Except.ok (MonthStatus.Greater, Month.Niktvirin)
    else if month_str = [65] then Except.ok (MonthStatus.Greater, Month.Apress)
    else if month_str = [83] then Except.ok (MonthStatus.Greater, Month.Smosh)
    else if month_str = [70] then Except.ok (MonthStatus.Greater, Month.Funny)
    else Except.error HTParseError.MalformedString
  else if gl_str = [76] then
    if month_str = [90] then Except.ok (MonthStatus.Lesser, Month.Zero)
    else if month_str = [78] then Except.ok (MonthStatus.Lesser, Month.Niktvirin)
    else if month_str = [65] then Except.ok (MonthStatus.Lesser, Month.Apress)
    else if month_str = [83] then Except.ok (MonthStatus.Lesser, Month.Smosh)
    else if month_str = [70] then Except.ok (MonthStatus.Lesser, Month.Funny)
    else Except.error HTParseError.MalformedString
  else Except.error HTParseError.MalformedString

/-- Lifts an `Option Nat` parse result to the `Result` the Rust code builds via
`.map_err(|_| HTParseError::MalformedString)?`. -/
def toResult (o : Option Nat) : Except HTParseError Nat :=
  match o with
  | some n => Except.ok n
  | none => Except.error HTParseError.MalformedString

/-- `HTDate::interpret_string` from `src/lib.rs`.  The outer `Option` layer
records panics: each Rust slice `&input[a..b]` is a `strSlice` bind, so an
out-of-bounds or non-char-boundary slice yields `none` (abnormal
termination), while every error the Rust code returns as a value appears as
`some (Except.error e)`. -/
def interpret_string (input : List Nat) : Option (Except HTParseError HTDate) :=
  if input.length > 8 then
    if input.length = 17 then -- YYYYGMDDTNNSNNNNR
      (strSlice input 0 4).bind (fun year_str =>
      (strSlice input 4 5).bind (fun gl_str =>
      (strSlice input 5 6).bind (fun month_str =>
      (strSlice input 6 8).bind (fun day_str =>
      (strSlice input 9 11).bind (fun sks_str =>
      (strSlice input 12 16).bind (fun rem_str =>
      some (
        (toResult (parse_u128 year_str)).bind (fun year =>
        (parse_month_from_gl_and_m gl_str month_str).bind (fun month =>
        (toResult (parse_u8 day_str)).bind (fun day =>
        (toResult (parse_u128 sks_str)).bind (fun sks =>
        (toResult (parse_u128 rem_str)).bind (fun rem =>
        Except.ok { year := year, month := month, day := day,
                    second := sks * 6000 + rem }))))))))))))
    else if input.length = 10 then -- YYYY-GM-DD
      (strSlice input 0 4).bind (fun year_str =>
      (strSlice input 5 6).bind (fun gl_str =>
      (strSlice input 6 7).bind (fun month_str =>
      (strSlice input 8 10).bind (fun day_str =>
      some (
        (toResult (parse_u128 year_str)).bind (fun year =>
        (parse_month_from_gl_and_m gl_str month_str).bind (fun month =>
        (toResult (parse_u8 day_str)).bind (fun day =>
        Except.ok { year := year, month := month, day := day, second := 0 }))))))))
    else if input.length = 19 then -- YYYY-GM-DDTNNSNNNNR
      (strSlice input 0 4).bind (fun year_str =>
      (strSlice input 5 6).bind (fun gl_str =>
      (strSlice input 6 7).bind (fun month_str =>
      (strSlice input 8 10).bind (fun day_str =>
      (strSlice input 11 13).bind (fun sks_str =>
      (strSlice input 14 18).bind (fun rem_str =>
      some (
        (toResult (parse_u128 year_str)).bind (fun year =>
        (parse_month_from_gl_and_m gl_str month_str).bind (fun month =>
        (toResult (parse_u8 day_str)).bind (fun day =>
        (toResult (parse_u128 sks_str)).bind (fun sks =>
        (toResult (parse_u128 rem_str)).bind (fun rem =>
        Except.ok { year := year, month := month, day := day,
                    second := sks * 6000 + rem }))))))))))))
    else
      some (Except.error HTParseError.MalformedString)
  else -- most likely YYYYGMDD (every length ≤ 8 is sliced with these offsets)
    (strSlice input 0 4).bind (fun year_str =>
    (strSlice input 4 5).bind (fun gl_str =>
    (strSlice input 5 6).bind (fun month_str =>
    (strSlice input 6 8).bind (fun day_str =>
    some (
      (toResult (parse_u128 year_str)).bind (fun year =>
      (parse_month_from_gl_and_m gl_str month_str).bind (fun month =>
      (toResult (parse_u8 day_str)).bind (fun day =>
      if day > 24 then Except.error HTParseError.TooManyDays
      else Except.ok { year := year, month := month, day := day, second := 0 }))))))))

/-- Fuel-driven base-10 rendering: `decAux fuel n` is the list of ASCII digit
bytes of `n` (most significant first), empty for `n = 0`; `fuel ≥ n` is enough
fuel. -/
def decAux : Nat → Nat → List Nat
  | 0, _ => []
  | _ + 1, 0 => []
  | fuel + 1, n + 1 => decAux fuel ((n + 1) / 10) ++ [(n + 1) % 10 + 48]

/-- Decimal rendering of a `Nat` as ASCII bytes, exactly as Rust's `Display`
for unsigned integers ( `0` renders as `"0"`). -/
def decBytes (n : Nat) : List Nat :=
  if n = 0 then [48] else decAux n n

/-- Rust's `format!` fill-align specifier `{:0>w}`: left-pad with `'0'` to a
minimum width `w`, never truncating. -/
def padLeft (w : Nat) (s : List Nat) : List Nat :=
  List.replicate (w - s.length) 48 ++ s

/-- Status character chosen by the formatter: `"G"` for `Greater`, else `"L"`. -/
def glByte : MonthStatus → Nat
  | MonthStatus.Greater => 71
  | MonthStatus.Lesser => 76

/-- Month character chosen by the formatter. -/
def monthByte : Month → Nat
  | Month.Zero => 90
  | Month.Niktvirin => 78
  | Month.Apress => 65
  | Month.Smosh => 83
  | Month.Funny => 70

/-- `impl Display for HTDate` from `src/lib.rs`:
`format!("{}-{}{}-{}T{}S{}R", year4, gl, month, day2, sks2, rem4)` where
`sks = second / 6000` and `rem = second % 6000` (bytes 45 `-`, 84 `T`,
83 `S`, 82 `R`). -/
def fmtFull (d : HTDate) : List Nat :=
  padLeft 4 (decBytes d.year) ++ [45, glByte d.month.1, monthByte d.month.2, 45] ++
  padLeft 2 (decBytes d.day) ++ [84] ++
  padLeft 2 (decBytes (d.second / 6000)) ++ [83] ++
  padLeft 4 (decBytes (d.second % 6000)) ++ [82]

/-- `HTDate::to_string_no_secs` from `src/lib.rs`:
`format!("{}-{}{}-{}", year4, gl, month, day2)`. -/
def to_string_no_secs (d : HTDate) : List Nat :=
  padLeft 4 (decBytes d.year) ++ [45, glByte d.month.1, monthByte d.month.2, 45] ++
  padLeft 2 (decBytes d.day)

/-- The 8-character compact date-only layout of the spec (§4.3):
4-digit zero-padded year, status char, month char, 2-digit zero-padded day. -/
def compactDate (y : Nat) (st : MonthStatus) (m : Month) (d : Nat) : List Nat :=
  padLeft 4 (decBytes y) ++ [glByte st, monthByte m] ++ padLeft 2 (decBytes d)

/-- The 10-character dashed date-only layout of the spec (§4.3), identical to
`to_string_no_secs`. -/
def dashedDate (y : Nat) (st : MonthStatus) (m : Month) (d : Nat) : List Nat :=
  padLeft 4 (decBytes y) ++ [45, glByte st, monthByte m, 45] ++ padLeft 2 (decBytes d)

/-- Byte list of an ASCII string literal (for ASCII characters the code point
is the UTF-8 byte). -/
def asciiOf (s : String) : List Nat :=
  s.data.map Char.toNat

/-- UTF-8 bytes of the 10-byte string made of five U+03A9 (Greek capital
Omega) characters: each encodes as `0xCE 0xA9`. -/
def fiveOmegaBytes : List Nat :=
  [206, 169, 206, 169, 206, 169, 206, 169, 206, 169]

/-- Modelled from the spec: the wraparound (modular) integer representation
(`std::num::Wrapping<u128>`) in which the external date-time type stores its
second count; the codec merely wraps and unwraps the underlying value
(spec §3 lifecycle, §6, §9 "External wraparound-integer field"). -/
structure Wrapping where
  val : Nat
deriving DecidableEq

/-- Modelled from the spec: the external `ht_cal::datetime::HDateTime` type,
treated as an opaque struct with public fields `year`, `month`, `day`,
`second`, the last held in the wraparound-integer representation (spec §1
scope exclusion, §3 lifecycle, §6). -/
structure HDateTime where
  year : Nat
  month : MonthStatus × Month
  day : Nat
  second : Wrapping
deriving DecidableEq

/-- Modelled from the spec: `HDateTime::new()`, an external constructor whose
field values are irrelevant here because `to_hdatetime` overwrites every field
the codec reads back. -/
def HDateTime.new : HDateTime :=
  { year := 0, month := (MonthStatus.Greater, Month.Zero), day := 0, second := ⟨0⟩ }

/-- `HTDate::to_hdatetime` from `src/lib.rs`: field-by-field copy, wrapping
`second` into the external `Wrapping` representation. -/
def HTDate.to_hdatetime (d : HTDate) : HDateTime :=
  { HDateTime.new with
      year := d.year
      month := (d.month.1, d.month.2)
      day := d.day
      second := ⟨d.second⟩ }

/-- `HTDate::from_hdatetime` from `src/lib.rs`: field-by-field copy, unwrapping
the `Wrapping` second count. -/
def HTDate.from_hdatetime (h : HDateTime) : HTDate :=
  { year := h.year, month := h.month, day := h.day, second := h.second.val }

end HT

namespace HT

/-! ### Arithmetic of decimal rendering and parsing -/

/-- Value of a big-endian ASCII digit string under the accumulator loop of
`parseDigits`. -/
def valFold (acc : Nat) (l : List Nat) : Nat :=
  l.foldl (fun a b => a * 10 + (b - 48)) acc

theorem valFold_cons (acc b : Nat) (l : List Nat) :
    valFold acc (b :: l) = valFold (acc * 10 + (b - 48)) l := rfl

theorem valFold_append (acc : Nat) (l1 l2 : List Nat) :
    valFold acc (l1 ++ l2) = valFold (valFold acc l1) l2 := by
  simp [valFold, List.foldl_append]

theorem decAux_digits : ∀ fuel n, ∀ b ∈ decAux fuel n, 48 ≤ b ∧ b ≤ 57 := by
  intro fuel
  induction fuel with
  | zero => intro n b hb; simp [decAux] at hb
  | succ f ih =>
    intro n b hb
    cases n with
    | zero => simp [decAux] at hb
    | succ m =>
      simp only [decAux, List.mem_append, List.mem_singleton] at hb
      rcases hb with hb | hb
      · exact ih _ b hb
      · subst hb
        constructor
        · omega
        · have : (m + 1) % 10 < 10 := Nat.mod_lt _ (by norm_num)
          omega

theorem decAux_val : ∀ fuel n acc, n ≤ fuel →
    valFold acc (decAux fuel n) = acc * 10 ^ (decAux fuel n).length + n := by
  intro fuel
  induction fuel with
  | zero =>
    intro n acc h
    have hn : n = 0 := by omega
    subst hn
    simp [decAux, valFold]
  | succ f ih =>
    intro n acc h
    cases n with
    | zero => simp [decAux, valFold]
    | succ m =>
      have hdiv : (m + 1) / 10 ≤ f := by omega
      simp only [decAux, valFold_append, List.length_append, List.length_cons,
        List.length_nil]
      rw [ih _ acc hdiv]
      have h48 : (m + 1) % 10 + 48 - 48 = (m + 1) % 10 := by omega
      simp only [valFold, List.foldl_cons, List.foldl_nil, h48]
      rw [pow_succ, ← mul_assoc]
      have h10 := Nat.div_add_mod (m + 1) 10
      omega

theorem decAux_ne_nil (fuel n : Nat) (hn : n ≠ 0) (h : n ≤ fuel) : decAux fuel n ≠ [] := by
  cases fuel with
  | zero => omega
  | succ f =>
    cases n with
    | zero => omega
    | succ m => simp [decAux]

theorem decAux_len_le : ∀ fuel n w, n ≤ fuel → n < 10 ^ w → (decAux fuel n).length ≤ w := by
  intro fuel
  induction fuel with
  | zero =>
    intro n w h hw
    have hn : n = 0 := by omega
    subst hn
    simp [decAux]
  | succ f ih =>
    intro n w h hw
    cases n with
    | zero => simp [decAux]
    | succ m =>
      have hw1 : 1 ≤ w := by
        by_contra hc
        have hw0 : w = 0 := by omega
        subst hw0
        simp at hw
      have hq : (m + 1) / 10 < 10 ^ (w - 1) := by
        rw [Nat.div_lt_iff_lt_mul (by norm_num : (0:Nat) < 10)]
        calc m + 1 < 10 ^ w := hw
          _ = 10 ^ (w - 1) * 10 := by
              rw [← pow_succ]
              congr 1
              omega
      have := ih ((m + 1) / 10) (w - 1) (by omega) hq
      simp only [decAux, List.length_append, List.length_cons, List.length_nil]
      omega

theorem decBytes_digits (n : Nat) : ∀ b ∈ decBytes n, 48 ≤ b ∧ b ≤ 57 := by
  unfold decBytes
  split
  · intro b hb
    simp at hb
    omega
  · exact decAux_digits n n

theorem decBytes_val (n : Nat) : valFold 0 (decBytes n) = n := by
  unfold decBytes
  split
  · simp_all [valFold]
  · simpa using decAux_val n n 0 le_rfl

theorem decBytes_ne_nil (n : Nat) : decBytes n ≠ [] := by
  unfold decBytes
  split
  · simp
  · exact decAux_ne_nil n n (by assumption) le_rfl

theorem decBytes_len_le (n w : Nat) (h1 : 1 ≤ w) (h : n < 10 ^ w) :
    (decBytes n).length ≤ w := by
  unfold decBytes
  split
  · simpa using h1
  · exact decAux_len_le n n w le_rfl h

theorem padLeft_length (w : Nat) (s : List Nat) (h : s.length ≤ w) :
    (padLeft w s).length = w := by
  simp [padLeft]
  omega

theorem padLeft_digits (w : Nat) (s : List Nat) (h : ∀ b ∈ s, 48 ≤ b ∧ b ≤ 57) :
    ∀ b ∈ padLeft w s, 48 ≤ b ∧ b ≤ 57 := by
  intro b hb
  simp only [padLeft, List.mem_append, List.mem_replicate] at hb
  rcases hb with ⟨_, rfl⟩ | hb
  · omega
  · exact h b hb

theorem parseDigits_of_digits : ∀ (l : List Nat) (acc : Nat),
    (∀ b ∈ l, 48 ≤ b ∧ b ≤ 57) → parseDigits acc l = some (valFold acc l) := by
  intro l
  induction l with
  | nil => intro acc _; rfl
  | cons b t ih =>
    intro acc h
    have hb := h b (by simp)
    simp only [parseDigits, valFold_cons]
    rw [if_pos hb]
    exact ih _ (fun x hx => h x (by simp [hx]))

theorem valFold_replicate48 : ∀ k, valFold 0 (List.replicate k 48) = 0 := by
  intro k
  induction k with
  | zero => rfl
  | succ j ih => simpa [List.replicate_succ, valFold_cons] using ih

theorem parseDecimal_of_digits (l : List Nat) (hne : l ≠ [])
    (h : ∀ b ∈ l, 48 ≤ b ∧ b ≤ 57) : parseDecimal l = some (valFold 0 l) := by
  cases l with
  | nil => cases hne rfl
  | cons b t =>
    have hb := h b (by simp)
    simp only [parseDecimal]
    rw [if_neg (by omega : ¬ b = 43)]
    exact parseDigits_of_digits _ 0 h

theorem parseDecimal_pad (w n : Nat) : parseDecimal (padLeft w (decBytes n)) = some n := by
  have hd := padLeft_digits w _ (decBytes_digits n)
  have hne : padLeft w (decBytes n) ≠ [] := by
    simp only [padLeft, ne_eq, List.append_eq_nil]
    intro hcon
    exact decBytes_ne_nil n hcon.2
  rw [parseDecimal_of_digits _ hne hd]
  congr 1
  simp [padLeft, valFold_append, valFold_replicate48, decBytes_val]

theorem parse_u128_pad (w n : Nat) (h : n < 2 ^ 128) :
    parse_u128 (padLeft w (decBytes n)) = some n := by
  unfold parse_u128
  rw [parseDecimal_pad, Option.some_bind, if_pos h]

theorem parse_u8_pad (w n : Nat) (h : n < 2 ^ 8) :
    parse_u8 (padLeft w (decBytes n)) = some n := by
  unfold parse_u8
  rw [parseDecimal_pad, Option.some_bind, if_pos h]

theorem parseDigits_digits_of_some : ∀ (l : List Nat) (acc n : Nat),
    parseDigits acc l = some n → ∀ b ∈ l, 48 ≤ b ∧ b ≤ 57 := by
  intro l
  induction l with
  | nil => intro acc n _ b hb; simp at hb
  | cons c t ih =>
    intro acc n h b hb
    simp only [parseDigits] at h
    by_cases hc : 48 ≤ c ∧ c ≤ 57
    · rw [if_pos hc] at h
      rcases (by simpa using hb : b = c ∨ b ∈ t) with rfl | hb2
      · exact hc
      · exact ih _ _ h b hb2
    · rw [if_neg hc] at h
      cases h

theorem parseDecimal_ascii (bs : List Nat) (n : Nat) (h : parseDecimal bs = some n) :
    ∀ b ∈ bs, b < 128 := by
  cases bs with
  | nil => intro b hb; simp at hb
  | cons c t =>
    intro b hb
    simp only [parseDecimal] at h
    by_cases hc : c = 43
    · rw [if_pos hc] at h
      cases t with
      | nil => cases h
      | cons u v =>
        rcases (by simpa using hb : b = c ∨ b = u ∨ b ∈ v) with rfl | hb2
        · omega
        · have := parseDigits_digits_of_some _ 0 n h b (by simpa using hb2)
          omega
    · rw [if_neg hc] at h
      have := parseDigits_digits_of_some _ 0 n h b hb
      omega

theorem parse_u128_eq (bs : List Nat) (n : Nat) (h : parse_u128 bs = some n) :
    parseDecimal bs = some n := by
  unfold parse_u128 at h
  rcases Option.bind_eq_some.mp h with ⟨m, hm, hg⟩
  by_cases hlt : m < 2 ^ 128
  · rw [if_pos hlt] at hg
    cases hg
    exact hm
  · rw [if_neg hlt] at hg
    cases hg

theorem parse_u8_eq (bs : List Nat) (n : Nat) (h : parse_u8 bs = some n) :
    parseDecimal bs = some n := by
  unfold parse_u8 at h
  rcases Option.bind_eq_some.mp h with ⟨m, hm, hg⟩
  by_cases hlt : m < 2 ^ 8
  · rw [if_pos hlt] at hg
    cases hg
    exact hm
  · rw [if_neg hlt] at hg
    cases hg

theorem parse_u128_ascii (bs : List Nat) (n : Nat) (h : parse_u128 bs = some n) :
    ∀ b ∈ bs, b < 128 :=
  parseDecimal_ascii bs n (parse_u128_eq bs n h)

theorem parse_u8_ascii (bs : List Nat) (n : Nat) (h : parse_u8 bs = some n) :
    ∀ b ∈ bs, b < 128 :=
  parseDecimal_ascii bs n (parse_u8_eq bs n h)

end HT

namespace HT

/-! ### Slicing over ASCII inputs -/

theorem getD_mem : ∀ (bs : List Nat) (i : Nat), i < bs.length → bs.getD i 0 ∈ bs := by
  intro bs
  induction bs with
  | nil => intro i h; simp at h
  | cons b t ih =>
    intro i h
    cases i with
    | zero => simp
    | succ j =>
      simp only [List.getD_cons_succ]
      exact List.mem_cons_of_mem _ (ih j (by simpa using h))

theorem isCharBoundary_ascii (bs : List Nat) (i : Nat)
    (hascii : ∀ x ∈ bs, x < 128) (hi : i ≤ bs.length) : isCharBoundary bs i = true := by
  unfold isCharBoundary
  by_cases h0 : i = 0
  · rw [if_pos h0]
  · rw [if_neg h0]
    by_cases hlt : i < bs.length
    · rw [if_pos hlt]
      simp only [decide_eq_true_eq]
      exact Or.inl (hascii _ (getD_mem bs i hlt))
    · rw [if_neg hlt]
      simp only [decide_eq_true_eq]
      omega

theorem strSlice_ascii (bs : List Nat) (a b : Nat) (hascii : ∀ x ∈ bs, x < 128)
    (hab : a ≤ b) (hb : b ≤ bs.length) :
    strSlice bs a b = some ((bs.drop a).take (b - a)) := by
  unfold strSlice
  rw [if_pos ⟨hab, isCharBoundary_ascii bs a hascii (le_trans hab hb),
    isCharBoundary_ascii bs b hascii hb⟩]

theorem strSlice_parts (bs pre mid post : List Nat) (a b : Nat)
    (hascii : ∀ x ∈ bs, x < 128)
    (hbs : bs = pre ++ (mid ++ post))
    (ha : pre.length = a) (hb : pre.length + mid.length = b) :
    strSlice bs a b = some mid := by
  have hab : a ≤ b := by omega
  have hlen : b ≤ bs.length := by
    subst hbs
    simp only [List.length_append]
    omega
  rw [strSlice_ascii bs a b hascii hab hlen]
  congr 1
  subst hbs
  subst ha
  have hk : b - pre.length = mid.length := by omega
  rw [hk, List.drop_left, List.take_left]

theorem strSlice_some (bs : List Nat) (a b : Nat) (l : List Nat)
    (h : strSlice bs a b = some l) : l = (bs.drop a).take (b - a) := by
  unfold strSlice at h
  split at h
  · cases h; rfl
  · cases h

/-! ### Inversion helpers for the bind chains -/

theorem except_bind_ok {α β : Type} (x : Except HTParseError α)
    (f : α → Except HTParseError β) (b : β) (h : x.bind f = Except.ok b) :
    ∃ a, x = Except.ok a ∧ f a = Except.ok b := by
  cases x with
  | error e => simp [Except.bind] at h
  | ok a => exact ⟨a, rfl, h⟩

theorem toResult_ok (o : Option Nat) (n : Nat) (h : toResult o = Except.ok n) :
    o = some n := by
  cases o with
  | none => simp [toResult] at h
  | some m =>
    simp only [toResult, Except.ok.injEq] at h
    rw [h]

/-! ### The month-code resolver -/

theorem parse_month_ok_shape (gs ms : List Nat) (p : MonthStatus × Month)
    (h : parse_month_from_gl_and_m gs ms = Except.ok p) :
    (gs = [71] ∨ gs = [76]) ∧
      (ms = [90] ∨ ms = [78] ∨ ms = [65] ∨ ms = [83] ∨ ms = [70]) := by
  unfold parse_month_from_gl_and_m at h
  split_ifs at h <;> first | exact Except.noConfusion h | tauto

theorem parse_month_render (st : MonthStatus) (m : Month) :
    parse_month_from_gl_and_m [glByte st] [monthByte m] = Except.ok (st, m) := by
  cases st <;> cases m <;> rfl

end HT

namespace HT

/-! ### Layout lemmas: successful decodes of the four accepted shapes -/

theorem layout10_ok (Y G M D : List Nat) (c1 c2 : Nat) (y d : Nat)
    (mo : MonthStatus × Month)
    (hY : Y.length = 4) (hD : D.length = 2)
    (hpY : parse_u128 Y = some y)
    (hmo : parse_month_from_gl_and_m G M = Except.ok mo)
    (hpD : parse_u8 D = some d)
    (hc1 : c1 < 128) (hc2 : c2 < 128) :
    interpret_string (Y ++ [c1] ++ G ++ M ++ [c2] ++ D) =
      some (Except.ok { year := y, month := mo, day := d, second := 0 }) := by
  obtain ⟨hg, hm⟩ := parse_month_ok_shape G M mo hmo
  have hG1 : G.length = 1 := by rcases hg with rfl | rfl <;> rfl
  have hM1 : M.length = 1 := by rcases hm with rfl | rfl | rfl | rfl | rfl <;> rfl
  have hGa : ∀ x ∈ G, x < 128 := by
    rcases hg with rfl | rfl <;> (intro x hx; simp at hx; omega)
  have hMa : ∀ x ∈ M, x < 128 := by
    rcases hm with rfl | rfl | rfl | rfl | rfl <;> (intro x hx; simp at hx; omega)
  have hYa : ∀ x ∈ Y, x < 128 := parse_u128_ascii Y y hpY
  have hDa : ∀ x ∈ D, x < 128 := parse_u8_ascii D d hpD
  set bs := Y ++ [c1] ++ G ++ M ++ [c2] ++ D with hbs
  have hlen : bs.length = 10 := by
    simp [hbs, hY, hG1, hM1, hD]
  have hascii : ∀ x ∈ bs, x < 128 := by
    intro x hx
    simp only [hbs, List.append_assoc, List.mem_append, List.mem_cons,
      List.not_mem_nil, or_false] at hx
    rcases hx with hx | hx | hx | hx | hx | hx
    · exact hYa x hx
    · subst hx; exact hc1
    · exact hGa x hx
    · exact hMa x hx
    · subst hx; exact hc2
    · exact hDa x hx
  have s1 : strSlice bs 0 4 = some Y :=
    strSlice_parts bs [] Y ([c1] ++ G ++ M ++ [c2] ++ D) 0 4 hascii
      (by simp [hbs, List.append_assoc]) rfl (by simp [hY])
  have s2 : strSlice bs 5 6 = some G :=
    strSlice_parts bs (Y ++ [c1]) G (M ++ [c2] ++ D) 5 6 hascii
      (by simp [hbs, List.append_assoc]) (by simp [hY]) (by simp [hY, hG1])
  have s3 : strSlice bs 6 7 = some M :=
    strSlice_parts bs (Y ++ [c1] ++ G) M ([c2] ++ D) 6 7 hascii
      (by simp [hbs, List.append_assoc]) (by simp [hY, hG1])
      (by simp [hY, hG1, hM1])
  have s4 : strSlice bs 8 10 = some D :=
    strSlice_parts bs (Y ++ [c1] ++ G ++ M ++ [c2]) D [] 8 10 hascii
      (by simp [hbs, List.append_assoc]) (by simp [hY, hG1, hM1])
      (by simp [hY, hG1, hM1, hD])
  simp only [interpret_string, hlen]
  norm_num
  rw [s1, s2, s3, s4]
  simp [Option.bind, toResult, hpY, hmo, hpD, Except.bind]

end HT

namespace HT

theorem layout8_result (Y G M D : List Nat) (y d : Nat) (mo : MonthStatus × Month)
    (hY : Y.length = 4) (hD : D.length = 2)
    (hpY : parse_u128 Y = some y)
    (hmo : parse_month_from_gl_and_m G M = Except.ok mo)
    (hpD : parse_u8 D = some d) :
    interpret_string (Y ++ G ++ M ++ D) =
      some (if d > 24 then Except.error HTParseError.TooManyDays
            else Except.ok { year := y, month := mo, day := d, second := 0 }) := by
  obtain ⟨hg, hm⟩ := parse_month_ok_shape G M mo hmo
  have hG1 : G.length = 1 := by rcases hg with rfl | rfl <;> rfl
  have hM1 : M.length = 1 := by rcases hm with rfl | rfl | rfl | rfl | rfl <;> rfl
  have hGa : ∀ x ∈ G, x < 128 := by
    rcases hg with rfl | rfl <;> (intro x hx; simp at hx; omega)
  have hMa : ∀ x ∈ M, x < 128 := by
    rcases hm with rfl | rfl | rfl | rfl | rfl <;> (intro x hx; simp at hx; omega)
  have hYa : ∀ x ∈ Y, x < 128 := parse_u128_ascii Y y hpY
  have hDa : ∀ x ∈ D, x < 128 := parse_u8_ascii D d hpD
  set bs := Y ++ G ++ M ++ D with hbs
  have hlen : bs.length = 8 := by
    simp [hbs, hY, hG1, hM1, hD]
  have hascii : ∀ x ∈ bs, x < 128 := by
    intro x hx
    simp only [hbs, List.append_assoc, List.mem_append] at hx
    rcases hx with hx | hx | hx | hx
    · exact hYa x hx
    · exact hGa x hx
    · exact hMa x hx
    · exact hDa x hx
  have s1 : strSlice bs 0 4 = some Y :=
    strSlice_parts bs [] Y (G ++ M ++ D) 0 4 hascii
      (by simp [hbs, List.append_assoc]) rfl (by simp [hY])
  have s2 : strSlice bs 4 5 = some G :=
    strSlice_parts bs Y G (M ++ D) 4 5 hascii
      (by simp [hbs, List.append_assoc]) (by simp [hY]) (by simp [hY, hG1])
  have s3 : strSlice bs 5 6 = some M :=
    strSlice_parts bs (Y ++ G) M D 5 6 hascii
      (by simp [hbs, List.append_assoc]) (by simp [hY, hG1])
      (by simp [hY, hG1, hM1])
  have s4 : strSlice bs 6 8 = some D :=
    strSlice_parts bs (Y ++ G ++ M) D [] 6 8 hascii
      (by simp [hbs, List.append_assoc]) (by simp [hY, hG1, hM1])
      (by simp [hY, hG1, hM1, hD])
  simp only [interpret_string, hlen]
  norm_num
  rw [s1, s2, s3, s4]
  simp [Option.bind, toResult, hpY, hmo, hpD, Except.bind]

theorem layout17_ok (Y G M D S R : List Nat) (t s r : Nat) (y d sk rm : Nat)
    (mo : MonthStatus × Month)
    (hY : Y.length = 4) (hD : D.length = 2) (hS : S.length = 2) (hR : R.length = 4)
    (hpY : parse_u128 Y = some y)
    (hmo : parse_month_from_gl_and_m G M = Except.ok mo)
    (hpD : parse_u8 D = some d)
    (hpS : parse_u128 S = some sk)
    (hpR : parse_u128 R = some rm)
    (ht : t < 128) (hs : s < 128) (hr : r < 128) :
    interpret_string (Y ++ G ++ M ++ D ++ [t] ++ S ++ [s] ++ R ++ [r]) =
      some (Except.ok { year := y, month := mo, day := d, second := sk * 6000 + rm }) := by
  obtain ⟨hg, hm⟩ := parse_month_ok_shape G M mo hmo
  have hG1 : G.length = 1 := by rcases hg with rfl | rfl <;> rfl
  have hM1 : M.length = 1 := by rcases hm with rfl | rfl | rfl | rfl | rfl <;> rfl
  have hGa : ∀ x ∈ G, x < 128 := by
    rcases hg with rfl | rfl <;> (intro x hx; simp at hx; omega)
  have hMa : ∀ x ∈ M, x < 128 := by
    rcases hm with rfl | rfl | rfl | rfl | rfl <;> (intro x hx; simp at hx; omega)
  have hYa : ∀ x ∈ Y, x < 128 := parse_u128_ascii Y y hpY
  have hDa : ∀ x ∈ D, x < 128 := parse_u8_ascii D d hpD
  have hSa : ∀ x ∈ S, x < 128 := parse_u128_ascii S sk hpS
  have hRa : ∀ x ∈ R, x < 128 := parse_u128_ascii R rm hpR
  set bs := Y ++ G ++ M ++ D ++ [t] ++ S ++ [s] ++ R ++ [r] with hbs
  have hlen : bs.length = 17 := by
    simp [hbs, hY, hG1, hM1, hD, hS, hR]
  have hascii : ∀ x ∈ bs, x < 128 := by
    intro x hx
    simp only [hbs, List.append_assoc, List.mem_append, List.mem_cons,
      List.not_mem_nil, or_false] at hx
    rcases hx with hx | hx | hx | hx | hx | hx | hx | hx | hx
    · exact hYa x hx
    · exact hGa x hx
    · exact hMa x hx
    · exact hDa x hx
    · subst hx; exact ht
    · exact hSa x hx
    · subst hx; exact hs
    · exact hRa x hx
    · subst hx; exact hr
  have s1 : strSlice bs 0 4 = some Y :=
    strSlice_parts bs [] Y (G ++ M ++ D ++ [t] ++ S ++ [s] ++ R ++ [r]) 0 4 hascii
      (by simp [hbs, List.append_assoc]) rfl (by simp [hY])
  have s2 : strSlice bs 4 5 = some G :=
    strSlice_parts bs Y G (M ++ D ++ [t] ++ S ++ [s] ++ R ++ [r]) 4 5 hascii
      (by simp [hbs, List.append_assoc]) (by simp [hY]) (by simp [hY, hG1])
  have s3 : strSlice bs 5 6 = some M :=
    strSlice_parts bs (Y ++ G) M (D ++ [t] ++ S ++ [s] ++ R ++ [r]) 5 6 hascii
      (by simp [hbs, List.append_assoc]) (by simp [hY, hG1])
      (by simp [hY, hG1, hM1])
  have s4 : strSlice bs 6 8 = some D :=
    strSlice_parts bs (Y ++ G ++ M) D ([t] ++ S ++ [s] ++ R ++ [r]) 6 8 hascii
      (by simp [hbs, List.append_assoc]) (by simp [hY, hG1, hM1])
      (by simp [hY, hG1, hM1, hD])
  have s5 : strSlice bs 9 11 = some S :=
    strSlice_parts bs (Y ++ G ++ M ++ D ++ [t]) S ([s] ++ R ++ [r]) 9 11 hascii
      (by simp [hbs, List.append_assoc]) (by simp [hY, hG1, hM1, hD])
      (by simp [hY, hG1, hM1, hD, hS])
  have s6 : strSlice bs 12 16 = some R :=
    strSlice_parts bs (Y ++ G ++ M ++ D ++ [t] ++ S ++ [s]) R [r] 12 16 hascii
      (by simp [hbs, List.append_assoc]) (by simp [hY, hG1, hM1, hD, hS])
      (by simp [hY, hG1, hM1, hD, hS, hR])
  simp only [interpret_string, hlen]
  norm_num
  rw [s1, s2, s3, s4, s5, s6]
  simp [Option.bind, toResult, hpY, hmo, hpD, hpS, hpR, Except.bind]

theorem layout19_ok (Y G M D S R : List Nat) (c1 c2 c3 c4 c5 : Nat) (y d sk rm : Nat)
    (mo : MonthStatus × Month)
    (hY : Y.length = 4) (hD : D.length = 2) (hS : S.length = 2) (hR : R.length = 4)
    (hpY : parse_u128 Y = some y)
    (hmo : parse_month_from_gl_and_m G M = Except.ok mo)
    (hpD : parse_u8 D = some d)
    (hpS : parse_u128 S = some sk)
    (hpR : parse_u128 R = some rm)
    (hc1 : c1 < 128) (hc2 : c2 < 128) (hc3 : c3 < 128) (hc4 : c4 < 128)
    (hc5 : c5 < 128) :
    interpret_string
        (Y ++ [c1] ++ G ++ M ++ [c2] ++ D ++ [c3] ++ S ++ [c4] ++ R ++ [c5]) =
      some (Except.ok { year := y, month := mo, day := d, second := sk * 6000 + rm }) := by
  obtain ⟨hg, hm⟩ := parse_month_ok_shape G M mo hmo
  have hG1 : G.length = 1 := by rcases hg with rfl | rfl <;> rfl
  have hM1 : M.length = 1 := by rcases hm with rfl | rfl | rfl | rfl | rfl <;> rfl
  have hGa : ∀ x ∈ G, x < 128 := by
    rcases hg with rfl | rfl <;> (intro x hx; simp at hx; omega)
  have hMa : ∀ x ∈ M, x < 128 := by
    rcases hm with rfl | rfl | rfl | rfl | rfl <;> (intro x hx; simp at hx; omega)
  have hYa : ∀ x ∈ Y, x < 128 := parse_u128_ascii Y y hpY
  have hDa : ∀ x ∈ D, x < 128 := parse_u8_ascii D d hpD
  have hSa : ∀ x ∈ S, x < 128 := parse_u128_ascii S sk hpS
  have hRa : ∀ x ∈ R, x < 128 := parse_u128_ascii R rm hpR
  set bs := Y ++ [c1] ++ G ++ M ++ [c2] ++ D ++ [c3] ++ S ++ [c4] ++ R ++ [c5] with hbs
  have hlen : bs.length = 19 := by
    simp [hbs, hY, hG1, hM1, hD, hS, hR]
  have hascii : ∀ x ∈ bs, x < 128 := by
    intro x hx
    simp only [hbs, List.append_assoc, List.mem_append, List.mem_cons,
      List.not_mem_nil, or_false] at hx
    rcases hx with hx | hx | hx | hx | hx | hx | hx | hx | hx | hx | hx
    · exact hYa x hx
    · subst hx; exact hc1
    · exact hGa x hx
    · exact hMa x hx
    · subst hx; exact hc2
    · exact hDa x hx
    · subst hx; exact hc3
    · exact hSa x hx
    · subst hx; exact hc4
    · exact hRa x hx
    · subst hx; exact hc5
  have s1 : strSlice bs 0 4 = some Y :=
    strSlice_parts bs [] Y ([c1] ++ G ++ M ++ [c2] ++ D ++ [c3] ++ S ++ [c4] ++ R ++ [c5])
      0 4 hascii (by simp [hbs, List.append_assoc]) rfl (by simp [hY])
  have s2 : strSlice bs 5 6 = some G :=
    strSlice_parts bs (Y ++ [c1]) G (M ++ [c2] ++ D ++ [c3] ++ S ++ [c4] ++ R ++ [c5])
      5 6 hascii (by simp [hbs, List.append_assoc]) (by simp [hY]) (by simp [hY, hG1])
  have s3 : strSlice bs 6 7 = some M :=
    strSlice_parts bs (Y ++ [c1] ++ G) M ([c2] ++ D ++ [c3] ++ S ++ [c4] ++ R ++ [c5])
      6 7 hascii (by simp [hbs, List.append_assoc]) (by simp [hY, hG1])
      (by simp [hY, hG1, hM1])
  have s4 : strSlice bs 8 10 = some D :=
    strSlice_parts bs (Y ++ [c1] ++ G ++ M ++ [c2]) D ([c3] ++ S ++ [c4] ++ R ++ [c5])
      8 10 hascii (by simp [hbs, List.append_assoc]) (by simp [hY, hG1, hM1])
      (by simp [hY, hG1, hM1, hD])
  have s5 : strSlice bs 11 13 = some S :=
    strSlice_parts bs (Y ++ [c1] ++ G ++ M ++ [c2] ++ D ++ [c3]) S ([c4] ++ R ++ [c5])
      11 13 hascii (by simp [hbs, List.append_assoc]) (by simp [hY, hG1, hM1, hD])
      (by simp [hY, hG1, hM1, hD, hS])
  have s6 : strSlice bs 14 18 = some R :=
    strSlice_parts bs (Y ++ [c1] ++ G ++ M ++ [c2] ++ D ++ [c3] ++ S ++ [c4]) R [c5]
      14 18 hascii (by simp [hbs, List.append_assoc]) (by simp [hY, hG1, hM1, hD, hS])
      (by simp [hY, hG1, hM1, hD, hS, hR])
  simp only [interpret_string, hlen]
  norm_num
  rw [s1, s2, s3, s4, s5, s6]
  simp [Option.bind, toResult, hpY, hmo, hpD, hpS, hpR, Except.bind]

end HT

namespace HT

/-! ### Field lemmas for padded decimal fields -/

theorem pad4_len (n : Nat) (h : n ≤ 9999) : (padLeft 4 (decBytes n)).length = 4 :=
  padLeft_length _ _ (decBytes_len_le n 4 (by norm_num) (lt_of_le_of_lt h (by norm_num)))

theorem pad2_len (n : Nat) (h : n ≤ 99) : (padLeft 2 (decBytes n)).length = 2 :=
  padLeft_length _ _ (decBytes_len_le n 2 (by norm_num) (lt_of_le_of_lt h (by norm_num)))

/-! ### The claims -/

/-- Claim C1, counterexample: the round-trip fails for the valid date with
year 10000 (and day 1, second 0): its `Display` rendering has 20 characters,
so `interpret_string` rejects it with `MalformedString` instead of returning
the date back. -/
theorem c1_counterexample :
    interpret_string (fmtFull ⟨10000, (MonthStatus.Greater, Month.Zero), 1, 0⟩) =
      some (Except.error HTParseError.MalformedString) ∧
    interpret_string (fmtFull ⟨10000, (MonthStatus.Greater, Month.Zero), 1, 0⟩) ≠
      some (Except.ok ⟨10000, (MonthStatus.Greater, Month.Zero), 1, 0⟩) :=
  ⟨by decide, by decide⟩

/-- Claim C1 (amended): for every date whose rendered numeric fields stay at
their nominal widths — year ≤ 9999, day ≤ 99, second < 600000 — parsing the
full-format `Display` rendering returns exactly the original date. -/
theorem c1_round_trip_amended (d : HTDate) (hy : d.year ≤ 9999) (hd : d.day ≤ 99)
    (hs : d.second < 600000) : interpret_string (fmtFull d) = some (Except.ok d) := by
  have hsk : d.second / 6000 ≤ 99 := by omega
  have hrm : d.second % 6000 ≤ 5999 := by omega
  have h1 := pad4_len d.year hy
  have h2 := pad2_len d.day hd
  have h3 := pad2_len (d.second / 6000) (by omega)
  have h4 := pad4_len (d.second % 6000) (by omega)
  have heq : fmtFull d =
      padLeft 4 (decBytes d.year) ++ [45] ++ [glByte d.month.1] ++
      [monthByte d.month.2] ++ [45] ++ padLeft 2 (decBytes d.day) ++ [84] ++
      padLeft 2 (decBytes (d.second / 6000)) ++ [83] ++
      padLeft 4 (decBytes (d.second % 6000)) ++ [82] := by
    simp [fmtFull]
  rw [heq]
  rw [layout19_ok _ _ _ _ _ _ 45 45 84 83 82 d.year d.day (d.second / 6000)
    (d.second % 6000) (d.month.1, d.month.2) h1 h2 h3 h4
    (parse_u128_pad 4 d.year (lt_of_le_of_lt hy (by norm_num)))
    (parse_month_render d.month.1 d.month.2)
    (parse_u8_pad 2 d.day (lt_of_le_of_lt hd (by norm_num)))
    (parse_u128_pad 2 (d.second / 6000) (lt_of_le_of_lt hsk (by norm_num)))
    (parse_u128_pad 4 (d.second % 6000) (lt_of_le_of_lt hrm (by norm_num)))
    (by norm_num) (by norm_num) (by norm_num) (by norm_num) (by norm_num)]
  have hsec : d.second / 6000 * 6000 + d.second % 6000 = d.second := by omega
  rw [hsec]

/-- Witness for C1 (amended): the round-trip at the concrete date
2019, (Greater, Niktvirin), day 1, second 123456. -/
theorem c1_witness :
    interpret_string (fmtFull ⟨2019, (MonthStatus.Greater, Month.Niktvirin), 1, 123456⟩) =
      some (Except.ok ⟨2019, (MonthStatus.Greater, Month.Niktvirin), 1, 123456⟩) :=
  c1_round_trip_amended ⟨2019, (MonthStatus.Greater, Month.Niktvirin), 1, 123456⟩
    (by decide) (by decide) (by decide)

/-- Claim C2: the code aborts rather than returning a value on the empty
string (the compact branch slices `[0..4]` out of bounds) and on a ten-byte
all-multi-byte string (the dashed branch slices `[5..6]` off a character
boundary); both evaluate to `none`, the model of a panic. -/
theorem c2_short_and_multibyte_panic :
    interpret_string [] = none ∧ interpret_string fiveOmegaBytes = none :=
  ⟨by decide, by decide⟩

/-- Claim C3: every input longer than 8 bytes whose length is not 10, 17 or
19 is rejected with `MalformedString`; but a 7-character input is not
rejected — it is routed to the compact layout and the slice `[6..8]` panics
(`none`), contradicting the claim that every other length yields
`MalformedString`. -/
theorem c3_dispatch :
    (∀ bs : List Nat, 8 < bs.length → bs.length ≠ 10 → bs.length ≠ 17 →
        bs.length ≠ 19 →
        interpret_string bs = some (Except.error HTParseError.MalformedString))
    ∧ interpret_string (asciiOf ("1234567")) = none := by
  refine ⟨?_, by decide⟩
  intro bs h8 h10 h17 h19
  simp only [interpret_string]
  rw [if_pos h8, if_neg h17, if_neg h10, if_neg h19]

/-- Witness for C3: a 9-character input is rejected with `MalformedString`. -/
theorem c3_witness :
    interpret_string (asciiOf ("123456789")) =
      some (Except.error HTParseError.MalformedString) :=
  c3_dispatch.1 (asciiOf ("123456789")) (by decide) (by decide) (by decide) (by decide)

/-- Claim C4: the `day > 24` bound is enforced only in the compact
8-character layout: every compact string with 25 ≤ day ≤ 99 yields
`TooManyDays`, every dashed 10-character string with the same day parses
successfully, and concretely `"2019GA25"` fails with `TooManyDays` while
`"2019-GA-25"` parses to day 25. -/
theorem c4_day_bound_compact_only :
    (∀ (y : Nat) (st : MonthStatus) (m : Month) (d : Nat), y ≤ 9999 → 25 ≤ d →
        d ≤ 99 → interpret_string (compactDate y st m d) =
          some (Except.error HTParseError.TooManyDays))
    ∧ (∀ (y : Nat) (st : MonthStatus) (m : Month) (d : Nat), y ≤ 9999 → 25 ≤ d →
        d ≤ 99 → interpret_string (dashedDate y st m d) =
          some (Except.ok { year := y, month := (st, m), day := d, second := 0 }))
    ∧ interpret_string (asciiOf ("2019GA25")) =
        some (Except.error HTParseError.TooManyDays)
    ∧ interpret_string (asciiOf ("2019-GA-25")) =
        some (Except.ok ⟨2019, (MonthStatus.Greater, Month.Apress), 25, 0⟩) := by
  refine ⟨?_, ?_, by decide, by decide⟩
  · intro y st m d hy h25 hd
    have heq : compactDate y st m d =
        padLeft 4 (decBytes y) ++ [glByte st] ++ [monthByte m] ++
        padLeft 2 (decBytes d) := by
      simp [compactDate]
    rw [heq]
    rw [layout8_result _ _ _ _ y d (st, m) (pad4_len y hy) (pad2_len d hd)
      (parse_u128_pad 4 y (lt_of_le_of_lt hy (by norm_num)))
      (parse_month_render st m)
      (parse_u8_pad 2 d (lt_of_le_of_lt hd (by norm_num)))]
    rw [if_pos (by omega)]
  · intro y st m d hy h25 hd
    have heq : dashedDate y st m d =
        padLeft 4 (decBytes y) ++ [45] ++ [glByte st] ++ [monthByte m] ++ [45] ++
        padLeft 2 (decBytes d) := by
      simp [dashedDate]
    rw [heq]
    exact layout10_ok _ _ _ _ 45 45 y d (st, m) (pad4_len y hy) (pad2_len d hd)
      (parse_u128_pad 4 y (lt_of_le_of_lt hy (by norm_num)))
      (parse_month_render st m)
      (parse_u8_pad 2 d (lt_of_le_of_lt hd (by norm_num)))
      (by norm_num) (by norm_num)

/-- Witness for C4: the compact string for year 2019, Greater Apress, day 25
is rejected with `TooManyDays`. -/
theorem c4_witness :
    interpret_string (compactDate 2019 MonthStatus.Greater Month.Apress 25) =
      some (Except.error HTParseError.TooManyDays) :=
  c4_day_bound_compact_only.1 2019 MonthStatus.Greater Month.Apress 25
    (by decide) (by decide) (by decide)

end HT

namespace HT

/-- Claim C5: for every successfully parsed input of length 17 or 19, the
resulting `second` equals `sks * 6000 + rem` where `sks` and `rem` are the
decimal values of the 2-character sks slice and the 4-character remainder
slice; concretely both `"2019-GA-01T31S2000R"` and `"2019GA01T31S2000R"`
parse to second = 188000. -/
theorem c5_time_suffix_arithmetic :
    (∀ (bs : List Nat) (d : HTDate), bs.length = 17 →
        interpret_string bs = some (Except.ok d) →
        ∃ sk rm, parse_u128 ((bs.drop 9).take 2) = some sk ∧
          parse_u128 ((bs.drop 12).take 4) = some rm ∧
          d.second = sk * 6000 + rm)
    ∧ (∀ (bs : List Nat) (d : HTDate), bs.length = 19 →
        interpret_string bs = some (Except.ok d) →
        ∃ sk rm, parse_u128 ((bs.drop 11).take 2) = some sk ∧
          parse_u128 ((bs.drop 14).take 4) = some rm ∧
          d.second = sk * 6000 + rm)
    ∧ interpret_string (asciiOf ("2019-GA-01T31S2000R")) =
        some (Except.ok ⟨2019, (MonthStatus.Greater, Month.Apress), 1, 188000⟩)
    ∧ interpret_string (asciiOf ("2019GA01T31S2000R")) =
        some (Except.ok ⟨2019, (MonthStatus.Greater, Month.Apress), 1, 188000⟩) := by
  refine ⟨?_, ?_, by decide, by decide⟩
  · intro bs d hlen h
    simp only [interpret_string, hlen] at h
    norm_num at h
    rcases Option.bind_eq_some.mp h with ⟨ys, hys, h⟩
    rcases Option.bind_eq_some.mp h with ⟨gs, hgs, h⟩
    rcases Option.bind_eq_some.mp h with ⟨ms, hms, h⟩
    rcases Option.bind_eq_some.mp h with ⟨ds, hds, h⟩
    rcases Option.bind_eq_some.mp h with ⟨ss, hss, h⟩
    rcases Option.bind_eq_some.mp h with ⟨rs, hrs, h⟩
    have h2 := Option.some.inj h
    rcases except_bind_ok _ _ _ h2 with ⟨yv, hyv, h3⟩
    rcases except_bind_ok _ _ _ h3 with ⟨mov, hmov, h4⟩
    rcases except_bind_ok _ _ _ h4 with ⟨dv, hdv, h5⟩
    rcases except_bind_ok _ _ _ h5 with ⟨skv, hskv, h6⟩
    rcases except_bind_ok _ _ _ h6 with ⟨rmv, hrmv, h7⟩
    have hdd := (Except.ok.inj h7).symm
    have hss2 : ss = (bs.drop 9).take 2 := by
      simpa using strSlice_some bs 9 11 ss hss
    have hrs2 : rs = (bs.drop 12).take 4 := by
      simpa using strSlice_some bs 12 16 rs hrs
    refine ⟨skv, rmv, ?_, ?_, ?_⟩
    · rw [← hss2]
      exact toResult_ok _ _ hskv
    · rw [← hrs2]
      exact toResult_ok _ _ hrmv
    · rw [hdd]
  · intro bs d hlen h
    simp only [interpret_string, hlen] at h
    norm_num at h
    rcases Option.bind_eq_some.mp h with ⟨ys, hys, h⟩
    rcases Option.bind_eq_some.mp h with ⟨gs, hgs, h⟩
    rcases Option.bind_eq_some.mp h with ⟨ms, hms, h⟩
    rcases Option.bind_eq_some.mp h with ⟨ds, hds, h⟩
    rcases Option.bind_eq_some.mp h with ⟨ss, hss, h⟩
    rcases Option.bind_eq_some.mp h with ⟨rs, hrs, h⟩
    have h2 := Option.some.inj h
    rcases except_bind_ok _ _ _ h2 with ⟨yv, hyv, h3⟩
    rcases except_bind_ok _ _ _ h3 with ⟨mov, hmov, h4⟩
    rcases except_bind_ok _ _ _ h4 with ⟨dv, hdv, h5⟩
    rcases except_bind_ok _ _ _ h5 with ⟨skv, hskv, h6⟩
    rcases except_bind_ok _ _ _ h6 with ⟨rmv, hrmv, h7⟩
    have hdd := (Except.ok.inj h7).symm
    have hss2 : ss = (bs.drop 11).take 2 := by
      simpa using strSlice_some bs 11 13 ss hss
    have hrs2 : rs = (bs.drop 14).take 4 := by
      simpa using strSlice_some bs 14 18 rs hrs
    refine ⟨skv, rmv, ?_, ?_, ?_⟩
    · rw [← hss2]
      exact toResult_ok _ _ hskv
    · rw [← hrs2]
      exact toResult_ok _ _ hrmv
    · rw [hdd]

/-- Witness for C5: the length-17 clause applied to `"2019GA01T31S2000R"`,
whose parse succeeds with second 188000. -/
theorem c5_witness :
    ∃ sk rm, parse_u128 (((asciiOf ("2019GA01T31S2000R")).drop 9).take 2) = some sk ∧
      parse_u128 (((asciiOf ("2019GA01T31S2000R")).drop 12).take 4) = some rm ∧
      (⟨2019, (MonthStatus.Greater, Month.Apress), 1, 188000⟩ : HTDate).second =
        sk * 6000 + rm :=
  c5_time_suffix_arithmetic.1 (asciiOf ("2019GA01T31S2000R"))
    ⟨2019, (MonthStatus.Greater, Month.Apress), 1, 188000⟩ (by decide) (by decide)

/-- Claim C6: the month-code resolver is total and exhaustive over arbitrary
byte strings: it returns a unique Ok pair exactly for the 10 valid
(status, month) byte-string combinations (`"G"`/`"L"` with one of
`"Z"`, `"N"`, `"A"`, `"S"`, `"F"`), and `MalformedString` for every other
combination. -/
theorem c6_month_resolver_total :
    ∀ gs ms : List Nat,
      (((gs = [71] ∨ gs = [76]) ∧
          (ms = [90] ∨ ms = [78] ∨ ms = [65] ∨ ms = [83] ∨ ms = [70])) →
        ∃! p, parse_month_from_gl_and_m gs ms = Except.ok p)
      ∧ (¬((gs = [71] ∨ gs = [76]) ∧
          (ms = [90] ∨ ms = [78] ∨ ms = [65] ∨ ms = [83] ∨ ms = [70])) →
        parse_month_from_gl_and_m gs ms = Except.error HTParseError.MalformedString) := by
  intro gs ms
  constructor
  · rintro ⟨hg | hg, hm | hm | hm | hm | hm⟩ <;> subst hg <;> subst hm <;>
      exact ⟨_, rfl, fun q hq => (Except.ok.inj hq).symm⟩
  · intro hn
    unfold parse_month_from_gl_and_m
    split_ifs <;> first | rfl | tauto

/-- Witness for C6: the combination `"G"`, `"Z"` resolves to a unique pair. -/
theorem c6_witness :
    ∃! p, parse_month_from_gl_and_m [71] [90] = Except.ok p :=
  (c6_month_resolver_total [71] [90]).1 ⟨Or.inl rfl, Or.inl rfl⟩

/-- Claim C7: for every year ≤ 9999, every valid (status, month) pair and
every day ≤ 24, parsing the 8-character compact date-only string returns Ok
with exactly those fields and second = 0. -/
theorem c7_compact_round_trip (y : Nat) (st : MonthStatus) (m : Month) (d : Nat)
    (hy : y ≤ 9999) (hd : d ≤ 24) :
    interpret_string (compactDate y st m d) =
      some (Except.ok { year := y, month := (st, m), day := d, second := 0 }) := by
  have heq : compactDate y st m d =
      padLeft 4 (decBytes y) ++ [glByte st] ++ [monthByte m] ++
      padLeft 2 (decBytes d) := by
    simp [compactDate]
  rw [heq]
  rw [layout8_result _ _ _ _ y d (st, m) (pad4_len y hy) (pad2_len d (by omega))
    (parse_u128_pad 4 y (lt_of_le_of_lt hy (by norm_num)))
    (parse_month_render st m)
    (parse_u8_pad 2 d (by omega))]
  rw [if_neg (by omega)]

/-- Witness for C7: the compact round trip at year 2019, Greater Apress,
day 1. -/
theorem c7_witness :
    interpret_string (compactDate 2019 MonthStatus.Greater Month.Apress 1) =
      some (Except.ok
        { year := 2019, month := (MonthStatus.Greater, Month.Apress), day := 1,
          second := 0 }) :=
  c7_compact_round_trip 2019 MonthStatus.Greater Month.Apress 1 (by decide) (by decide)

/-- Claim C8: the parser never inspects the separator and delimiter
positions: in each of the three longer layouts (length 10, 17, 19), whenever
the numeric field slices parse and the status/month slices resolve, the input
parses successfully for arbitrary ASCII bytes at the dash and `T`/`S`/`R`
positions. -/
theorem c8_separators_ignored :
    (∀ (Y G M D : List Nat) (c1 c2 : Nat) (y d : Nat) (mo : MonthStatus × Month),
        Y.length = 4 → D.length = 2 → parse_u128 Y = some y →
        parse_month_from_gl_and_m G M = Except.ok mo → parse_u8 D = some d →
        c1 < 128 → c2 < 128 →
        interpret_string (Y ++ [c1] ++ G ++ M ++ [c2] ++ D) =
          some (Except.ok { year := y, month := mo, day := d, second := 0 }))
    ∧ (∀ (Y G M D S R : List Nat) (t s r : Nat) (y d sk rm : Nat)
        (mo : MonthStatus × Month),
        Y.length = 4 → D.length = 2 → S.length = 2 → R.length = 4 →
        parse_u128 Y = some y → parse_month_from_gl_and_m G M = Except.ok mo →
        parse_u8 D = some d → parse_u128 S = some sk → parse_u128 R = some rm →
        t < 128 → s < 128 → r < 128 →
        interpret_string (Y ++ G ++ M ++ D ++ [t] ++ S ++ [s] ++ R ++ [r]) =
          some (Except.ok { year := y, month := mo, day := d,
                            second := sk * 6000 + rm }))
    ∧ (∀ (Y G M D S R : List Nat) (c1 c2 c3 c4 c5 : Nat) (y d sk rm : Nat)
        (mo : MonthStatus × Month),
        Y.length = 4 → D.length = 2 → S.length = 2 → R.length = 4 →
        parse_u128 Y = some y → parse_month_from_gl_and_m G M = Except.ok mo →
        parse_u8 D = some d → parse_u128 S = some sk → parse_u128 R = some rm →
        c1 < 128 → c2 < 128 → c3 < 128 → c4 < 128 → c5 < 128 →
        interpret_string
            (Y ++ [c1] ++ G ++ M ++ [c2] ++ D ++ [c3] ++ S ++ [c4] ++ R ++ [c5]) =
          some (Except.ok { year := y, month := mo, day := d,
                            second := sk * 6000 + rm })) :=
  ⟨layout10_ok, layout17_ok, layout19_ok⟩

/-- Witness for C8: `"2019?GA!01"` — dashes replaced by `?` and `!` — parses
exactly like `"2019-GA-01"`. -/
theorem c8_witness :
    interpret_string (asciiOf ("2019") ++ [63] ++ [71] ++ [65] ++ [33] ++ asciiOf ("01")) =
      some (Except.ok
        { year := 2019, month := (MonthStatus.Greater, Month.Apress), day := 1,
          second := 0 }) :=
  c8_separators_ignored.1 (asciiOf ("2019")) [71] [65] (asciiOf ("01")) 63 33 2019 1
    (MonthStatus.Greater, Month.Apress) (by decide) (by decide) (by decide)
    (by decide) (by decide) (by decide) (by decide)

/-- Claim C9: conversion to and from the external date-time type is a
lossless field-by-field copy: `from_hdatetime (to_hdatetime d) = d` for every
date, the second count passing unchanged through the wraparound-integer
wrapper. -/
theorem c9_hdatetime_round_trip :
    ∀ d : HTDate, HTDate.from_hdatetime (HTDate.to_hdatetime d) = d := by
  intro d
  cases d with
  | mk y mo dy s =>
    cases mo with
    | mk a b => rfl

/-- Claim C10: formatting pads with a minimum width and never truncates: in
both output formats every numeric field carries its full decimal rendering
(only left-padded with `'0'`), and concretely year 10000 renders as the
5-character field `"10000"`, giving a 20-character full-format string. -/
theorem c10_padding_widens :
    (∀ d : HTDate, ∃ k1 k2 k3 k4,
        fmtFull d =
          List.replicate k1 48 ++ decBytes d.year ++
          [45, glByte d.month.1, monthByte d.month.2, 45] ++
          (List.replicate k2 48 ++ decBytes d.day) ++ [84] ++
          (List.replicate k3 48 ++ decBytes (d.second / 6000)) ++ [83] ++
          (List.replicate k4 48 ++ decBytes (d.second % 6000)) ++ [82])
    ∧ (∀ d : HTDate, ∃ k1 k2,
        to_string_no_secs d =
          List.replicate k1 48 ++ decBytes d.year ++
          [45, glByte d.month.1, monthByte d.month.2, 45] ++
          (List.replicate k2 48 ++ decBytes d.day))
    ∧ fmtFull ⟨10000, (MonthStatus.Greater, Month.Zero), 1, 0⟩ =
        asciiOf ("10000-GZ-01T00S0000R")
    ∧ (fmtFull ⟨10000, (MonthStatus.Greater, Month.Zero), 1, 0⟩).length = 20 := by
  refine ⟨?_, ?_, by decide, by decide⟩
  · intro d
    exact ⟨4 - (decBytes d.year).length, 2 - (decBytes d.day).length,
      2 - (decBytes (d.second / 6000)).length,
      4 - (decBytes (d.second % 6000)).length,
      by simp [fmtFull, padLeft, List.append_assoc]⟩
  · intro d
    exact ⟨4 - (decBytes d.year).length, 2 - (decBytes d.day).length,
      by simp [to_string_no_secs, padLeft, List.append_assoc]⟩

end HT
